import Mathlib

/-!
Shallow embedding of the shedding-hub-dash data pipeline (src/app.py and
src/scripts/sync_data.py) and proofs about its loader, vocabulary
extraction, selection callbacks and remote sync helper.

Python strings are Lean `String`; Python dicts that the code iterates or
updates are association lists in insertion order (keys unique in any dict
produced by the Python runtime); Python sets are `Finset String`;
`sorted(...)` is `Finset.sort (· ≤ ·)` for the lexicographic order on
`String`; a Python value that may be `None` is an `Option`.
-/

/-- Value of the `specimen` field of an analyte entry: the YAML data holds
either one scalar string or a list of strings (src/app.py lines 123-127
branch on `isinstance(specimen, list)`). -/
inductive SpecimenVal where
  | scalar (s : String)
  | vlist (ls : List String)
deriving DecidableEq

/-- One entry of the `analytes` mapping of a dataset, restricted to the
fields read by the vocabulary extraction code (src/app.py lines 117-132):
`biomarker`, `specimen`, `reference_event`. A field absent from the YAML
mapping is `none`, matching `analyte_info.get(...)` returning `None`. -/
structure Analyte where
  biomarker : Option String := none
  specimen : Option SpecimenVal := none
  reference_event : Option String := none
deriving DecidableEq

/-- One parsed YAML dataset, restricted to the fields the claims touch:
`dataset_id` (absent in the file, assigned by the loader at src/app.py line
89) and the `analytes` mapping (association list in YAML order). -/
structure Dataset where
  dataset_id : Option String := none
  analytes : List (String × Analyte) := []
deriving DecidableEq

/-- The global `datasets` dict of src/app.py line 61: dataset id mapped to
the parsed record, in insertion order. -/
abbrev Corpus := List (String × Dataset)

/-- Python dict lookup `datasets.get(ds_id)` over the corpus: the value at
the key, or `none` when the key is absent. -/
def lookupDataset (datasets : Corpus) (ds_id : String) : Option Dataset :=
  (datasets.find? (fun p => p.1 == ds_id)).map Prod.snd

/-- Contribution of one analyte to the biomarker set (src/app.py lines
118-120): `biomarker = analyte_info.get('biomarker'); if biomarker:
biomarkers.add(biomarker)`. A missing field or an empty string is falsy in
Python and contributes nothing. -/
def analyteBiomarkers (a : Analyte) : Finset String :=
  match a.biomarker with
  | some s => if s = "" then ∅ else {s}
  | none => ∅

/-- Contribution of one analyte to the specimen set (src/app.py lines
123-127): a list value updates the set with every element, a truthy scalar
is added as one value, and a falsy value (missing field or empty string)
contributes nothing. -/
def analyteSpecimens (a : Analyte) : Finset String :=
  match a.specimen with
  | some (SpecimenVal.vlist ls) => ls.toFinset
  | some (SpecimenVal.scalar s) => if s = "" then ∅ else {s}
  | none => ∅

/-- Contribution of one analyte to the reference event set (src/app.py
lines 130-132), with the same falsy filtering as biomarkers. -/
def analyteRefEvents (a : Analyte) : Finset String :=
  match a.reference_event with
  | some s => if s = "" then ∅ else {s}
  | none => ∅

/-- Union of the sets contributed by the elements of a list: the set a
Python loop accumulates with repeated `add`/`update` calls. -/
def unionOver {α β : Type} [DecidableEq α] (f : β → Finset α) : List β → Finset α
  | [] => ∅
  | b :: bs => f b ∪ unionOver f bs

/-- Biomarkers contributed by every analyte of one dataset (the inner loop
of src/app.py lines 116-132 over `analytes.items()`). -/
def datasetBiomarkers (ds : Dataset) : Finset String :=
  unionOver (fun p => analyteBiomarkers p.2) ds.analytes

/-- Specimens contributed by every analyte of one dataset. -/
def datasetSpecimens (ds : Dataset) : Finset String :=
  unionOver (fun p => analyteSpecimens p.2) ds.analytes

/-- Reference events contributed by every analyte of one dataset. -/
def datasetRefEvents (ds : Dataset) : Finset String :=
  unionOver (fun p => analyteRefEvents p.2) ds.analytes

/-- Python `sorted(list(s))` for a set of strings. -/
def sortedVocab (s : Finset String) : List String :=
  s.sort (· ≤ ·)

/-- Embedding of `get_unique_values` (src/app.py lines 106-136): the three
sorted vocabularies (biomarkers, specimens, reference events) accumulated
over every analyte of every loaded dataset. -/
def get_unique_values (datasets : Corpus) : List String × List String × List String :=
  (sortedVocab (unionOver (fun p => datasetBiomarkers p.2) datasets),
   sortedVocab (unionOver (fun p => datasetSpecimens p.2) datasets),
   sortedVocab (unionOver (fun p => datasetRefEvents p.2) datasets))

/-- The `selected_studies` argument of `_get_dataset_filter_options`
(src/app.py lines 579-591): a single id (a Python `str`), a list of ids, or
anything else (in the app, `None`); lines 586-591 normalize it. -/
inductive Selection where
  | one (id : String)
  | many (ids : List String)
  | nothing
deriving DecidableEq

/-- The normalization of src/app.py lines 586-591: a string becomes a
one-element list, a list is kept, anything else becomes the empty list. -/
def normalizeSelection : Selection → List String
  | Selection.one s => [s]
  | Selection.many l => l
  | Selection.nothing => []

/-- Python `datasets.get(ds_id, {})` of src/app.py line 594: the dataset at
the id, or an empty record when the id is absent from the corpus. -/
def selectedDataset (datasets : Corpus) (ds_id : String) : Dataset :=
  (lookupDataset datasets ds_id).getD {}

/-- Embedding of `_get_dataset_filter_options` (src/app.py lines 579-608):
the three sorted vocabularies accumulated over every analyte of every
dataset named by the normalized selection (an id absent from the corpus
yields the empty record and contributes nothing). -/
def get_dataset_filter_options (datasets : Corpus) (selected_studies : Selection) :
    List String × List String × List String :=
  let study_ids := normalizeSelection selected_studies
  (sortedVocab (unionOver (fun ds_id => datasetBiomarkers (selectedDataset datasets ds_id)) study_ids),
   sortedVocab (unionOver (fun ds_id => datasetSpecimens (selectedDataset datasets ds_id)) study_ids),
   sortedVocab (unionOver (fun ds_id => datasetRefEvents (selectedDataset datasets ds_id)) study_ids))

/-- Test of src/app.py line 78 `data_dir.glob("*.yaml")`: the filename ends
in the extension `.yaml` (pathlib glob also matches hidden files, which is
why the code filters them separately). -/
def endsWithYaml (s : String) : Bool :=
  ".yaml".data.isSuffixOf s.data

/-- Python `name.startswith('.')` on a string: its first character is a
dot. -/
def startsWithDot (s : String) : Bool :=
  s.data.head? == some '.'

/-- Pathlib `Path(name).stem` specialized to the names it is applied to in
src/app.py (names matching the glob `*.yaml`): the name without its last
suffix; the name `.yaml` itself has no suffix (a leading dot does not open
a suffix in pathlib), so it is its own stem. -/
def stem (s : String) : String :=
  if s.data.length ≤ 5 then s else { data := s.data.take (s.data.length - 5) }

/-- A directory as the loader sees it: each file is a name together with
the outcome of `yaml.safe_load` on its contents (`none` when parsing
raises). -/
abbrev Directory := List (String × Option Dataset)

/-- The selection of src/app.py line 78: files matching the glob `*.yaml`
whose stem does not start with a dot. -/
def yaml_files (dir : Directory) : Directory :=
  dir.filter (fun f => endsWithYaml f.1 && !startsWithDot (stem f.1))

/-- State accumulated by the loading loop of src/app.py lines 81-101: the
`datasets` dict and the errors printed so far (one per file whose parse
raised, line 101). -/
structure LoadResult where
  datasets : Corpus := []
  errors : List String := []
deriving DecidableEq

/-- Python dict assignment `m[k] = v` on an association list: an existing
key keeps its position and gets the new value, a new key is appended. -/
def insertAssoc (m : Corpus) (k : String) (v : Dataset) : Corpus :=
  if m.any (fun p => p.1 == k) then m.map (fun p => if p.1 == k then (k, v) else p)
  else m ++ [(k, v)]

/-- One iteration of the loading loop (src/app.py lines 81-101): a file
that parses gets `dataset_id` assigned to its stem (line 89) and is stored
under that id (line 92); a file whose parse raises is reported (line 101)
and skipped. -/
def loadStep (acc : LoadResult) (f : String × Option Dataset) : LoadResult :=
  match f.2 with
  | some d =>
      { acc with
        datasets := insertAssoc acc.datasets (stem f.1) { d with dataset_id := some (stem f.1) } }
  | none => { acc with errors := acc.errors ++ [f.1] }

/-- Embedding of `load_data` (src/app.py lines 69-103): fold the loading
loop over the selected YAML files, starting from the empty corpus. -/
def load_data (dir : Directory) : LoadResult :=
  (yaml_files dir).foldl loadStep {}

/-- Content computed for one tab by the callbacks of src/app.py: either a
placeholder message rendered in an html.Div, or the dataset(s) handed to
the plot/statistics generators. -/
inductive TabContent where
  | message (msg : String)
  | individual (ds : Dataset)
  | comparison (dss : List Dataset)
deriving DecidableEq

/-- Branch of `update_tab_plots` for a tab with `study_type ==
"individual"` (src/app.py lines 779-789). The selection is the stored
`selected_studies` config value, a string or `None`; a falsy value (line
780) or an id absent from the corpus (line 782) yields a placeholder
message, otherwise the named dataset is handed to
`generate_individual_plot`. The source wraps the id in single quotes in
the message; the quotes are omitted here. -/
def update_tab_plots_individual (datasets : Corpus) (selected_studies : Option String) :
    TabContent :=
  match selected_studies with
  | none => TabContent.message "Please select a study in the tab creation"
  | some s =>
    if s = "" then TabContent.message "Please select a study in the tab creation"
    else
      match lookupDataset datasets s with
      | none => TabContent.message ("Dataset " ++ s ++ " not found")
      | some ds => TabContent.individual ds

/-- Branch of `update_tab_plots` for a tab with `study_type == "multiple"`
(src/app.py lines 790-801). A value that is falsy or not a list (line 791,
modelled by `none` or the empty list) yields a placeholder; otherwise line
794 keeps the datasets of the ids present in the corpus, and a selection
with no valid id yields the placeholder of line 796. -/
def update_tab_plots_multiple (datasets : Corpus) (selected_studies : Option (List String)) :
    TabContent :=
  match selected_studies with
  | none => TabContent.message "Please select studies in the tab creation"
  | some ids =>
    if ids.isEmpty then TabContent.message "Please select studies in the tab creation"
    else
      let study_datasets := ids.filterMap (lookupDataset datasets)
      if study_datasets.isEmpty then TabContent.message "No valid datasets found"
      else TabContent.comparison study_datasets

/-- Branch of `update_tab_statistics` for an individual tab (src/app.py
lines 1070-1080): the same selection logic as the plots callback, feeding
`generate_individual_statistics`. -/
def update_tab_statistics_individual (datasets : Corpus) (selected_studies : Option String) :
    TabContent :=
  match selected_studies with
  | none => TabContent.message "Please select a study in the tab creation"
  | some s =>
    if s = "" then TabContent.message "Please select a study in the tab creation"
    else
      match lookupDataset datasets s with
      | none => TabContent.message ("Dataset " ++ s ++ " not found")
      | some ds => TabContent.individual ds

/-- Branch of `update_tab_statistics` for a multi-study tab (src/app.py
lines 1081-1092): the same selection logic as the plots callback, feeding
`generate_comparison_statistics`. -/
def update_tab_statistics_multiple (datasets : Corpus) (selected_studies : Option (List String)) :
    TabContent :=
  match selected_studies with
  | none => TabContent.message "Please select studies in the tab creation"
  | some ids =>
    if ids.isEmpty then TabContent.message "Please select studies in the tab creation"
    else
      let study_datasets := ids.filterMap (lookupDataset datasets)
      if study_datasets.isEmpty then TabContent.message "No valid datasets found"
      else TabContent.comparison study_datasets

/-- A Python value as it comes out of `yaml.safe_load`, restricted to the
shapes the schema-accessor claim needs: `None`, a scalar string, or a
mapping with string keys. -/
inductive PyVal where
  | pynone
  | str (s : String)
  | dict (kvs : List (String × PyVal))

/-- Embedding of the field lookup the pipeline uses on loosely typed
records, Python `record.get(key, default)` as called at src/app.py lines
115, 118, 123, 130, 594-604: on a dict it returns the value at the key or
the supplied default, never raising; on any value without a `get` method
(a scalar, or `None`) the attribute access itself raises `AttributeError`,
modelled as `Except.error`. -/
def dict_get (record : PyVal) (key : String) (dflt : PyVal) : Except String PyVal :=
  match record with
  | PyVal.dict kvs =>
    match kvs.find? (fun p => p.1 == key) with
    | some p => Except.ok p.2
    | none => Except.ok dflt
  | _ => Except.error "AttributeError"

/-- State accumulated by the download loop of src/scripts/sync_data.py
lines 45-65: the files written under the local data directory (local path
segments and content, in write order) and the remote paths whose fetch
raised (line 65). -/
structure SyncResult where
  written : List (List String × String) := []
  errors : List String := []
deriving DecidableEq

/-- Python `Path(remote_path).name` for a remote path given as its
segments: the last segment. -/
def baseName (segs : List String) : String :=
  (segs.getLast?).getD ""

/-- A remote path rendered as the slash-joined string used in the error
message of src/scripts/sync_data.py line 65. -/
def joinPath (segs : List String) : String :=
  String.intercalate "/" segs

/-- One iteration of the download loop (src/scripts/sync_data.py lines
46-65): a file whose name starts with a dot is skipped (lines 48-50);
otherwise the file is written to `data/<name>` (line 53, flattening the
remote directory structure), and a fetch failure is reported (line 65) and
the loop continues. -/
def syncStep (acc : SyncResult) (f : List String × Option String) : SyncResult :=
  let filename := baseName f.1
  if startsWithDot filename then acc
  else
    match f.2 with
    | some content => { acc with written := acc.written ++ [(["data", filename], content)] }
    | none => { acc with errors := acc.errors ++ [joinPath f.1] }

/-- Embedding of `sync_data` (src/scripts/sync_data.py lines 15-67): fold
the download loop over the remote YAML files, each given as its path
segments together with the outcome of fetching it (`none` when the fetch
raises). -/
def sync_data (files : List (List String × Option String)) : SyncResult :=
  files.foldl syncStep {}

/-- A one-analyte example record used by concrete instances below. -/
def exAnalyte : Analyte :=
  { biomarker := some "SARS-CoV-2"
    specimen := some (SpecimenVal.scalar "stool")
    reference_event := some "symptom onset" }

/-- A one-dataset corpus used by concrete instances below. -/
def exCorpus : Corpus :=
  [("d1", { dataset_id := some "d1", analytes := [("a1", exAnalyte)] })]

/-- An analyte whose list-valued specimen contains the empty string, used
by concrete instances below. -/
def exEmptySpecimenAnalyte : Analyte :=
  { specimen := some (SpecimenVal.vlist ["", "stool"]) }

/-- A corpus whose only analyte has a list-valued specimen containing the
empty string, used by concrete instances below. -/
def exCorpusEmptySpecimen : Corpus :=
  [("d1", { dataset_id := some "d1", analytes := [("a1", exEmptySpecimenAnalyte)] })]

theorem mem_unionOver {α β : Type} [DecidableEq α] (f : β → Finset α) (l : List β) (a : α) :
    a ∈ unionOver f l ↔ ∃ b ∈ l, a ∈ f b := by
  induction l with
  | nil => simp [unionOver]
  | cons b bs ih => simp [unionOver, ih]

theorem mem_analyteBiomarkers (a : Analyte) (s : String) :
    s ∈ analyteBiomarkers a ↔ a.biomarker = some s ∧ s ≠ "" := by
  unfold analyteBiomarkers
  cases h : a.biomarker with
  | none => simp
  | some t =>
    by_cases ht : t = ""
    · simp [ht, eq_comm]
    · simp only [ht, if_false, Finset.mem_singleton, Option.some.injEq]
      constructor
      · rintro rfl; exact ⟨rfl, fun hs => ht hs⟩
      · rintro ⟨rfl, _⟩; rfl

theorem mem_analyteSpecimens (a : Analyte) (s : String) :
    s ∈ analyteSpecimens a ↔
      (a.specimen = some (SpecimenVal.scalar s) ∧ s ≠ "") ∨
      ∃ ls, a.specimen = some (SpecimenVal.vlist ls) ∧ s ∈ ls := by
  unfold analyteSpecimens
  cases h : a.specimen with
  | none => simp
  | some v =>
    cases v with
    | scalar t =>
      by_cases ht : t = ""
      · simp [ht, eq_comm]
      · simp only [ht, if_false, Finset.mem_singleton, Option.some.injEq, SpecimenVal.scalar.injEq,
          reduceCtorEq, false_and, exists_false, or_false, and_false, exists_const]
        constructor
        · rintro rfl; exact ⟨rfl, fun hs => ht hs⟩
        · rintro ⟨rfl, _⟩; rfl
    | vlist ls => simp

theorem mem_analyteRefEvents (a : Analyte) (s : String) :
    s ∈ analyteRefEvents a ↔ a.reference_event = some s ∧ s ≠ "" := by
  unfold analyteRefEvents
  cases h : a.reference_event with
  | none => simp
  | some t =>
    by_cases ht : t = ""
    · simp [ht, eq_comm]
    · simp only [ht, if_false, Finset.mem_singleton, Option.some.injEq]
      constructor
      · rintro rfl; exact ⟨rfl, fun hs => ht hs⟩
      · rintro ⟨rfl, _⟩; rfl

theorem lookupDataset_mem (datasets : Corpus) (h : (datasets.map Prod.fst).Nodup)
    {p : String × Dataset} (hp : p ∈ datasets) : lookupDataset datasets p.1 = some p.2 := by
  induction datasets with
  | nil => simp at hp
  | cons q l ih =>
    simp only [List.map_cons, List.nodup_cons] at h
    rcases List.mem_cons.mp hp with rfl | hmem
    · simp [lookupDataset]
    · have hne : (q.1 == p.1) = false := by
        rw [beq_eq_false_iff_ne]
        intro he
        exact h.1 (he ▸ List.mem_map_of_mem Prod.fst hmem)
      simp only [lookupDataset, List.find?, hne]
      exact ih h.2 hmem

theorem mem_of_lookupDataset {datasets : Corpus} {k : String} {d : Dataset}
    (h : lookupDataset datasets k = some d) : (k, d) ∈ datasets := by
  unfold lookupDataset at h
  cases hf : datasets.find? (fun p => p.1 == k) with
  | none => rw [hf] at h; simp at h
  | some p =>
    rw [hf] at h
    simp only [Option.map, Option.some.injEq] at h
    have hm := List.mem_of_find?_eq_some hf
    have hk := List.find?_some hf
    simp only [beq_iff_eq] at hk
    have hp : p = (k, d) := by
      obtain ⟨p1, p2⟩ := p
      simp only at hk h
      rw [hk, h]
    exact hp ▸ hm

theorem unionOver_allKeys (datasets : Corpus) (h : (datasets.map Prod.fst).Nodup)
    (f : Dataset → Finset String) :
    unionOver (fun i => f (selectedDataset datasets i)) (datasets.map Prod.fst) =
      unionOver (fun p => f p.2) datasets := by
  ext x
  simp only [mem_unionOver, List.mem_map]
  constructor
  · rintro ⟨i, ⟨p, hp, rfl⟩, hx⟩
    refine ⟨p, hp, ?_⟩
    rwa [selectedDataset, lookupDataset_mem datasets h hp, Option.getD_some] at hx
  · rintro ⟨p, hp, hx⟩
    refine ⟨p.1, ⟨p, hp, rfl⟩, ?_⟩
    rwa [selectedDataset, lookupDataset_mem datasets h hp, Option.getD_some]

/-- Claim C1, corrected, counterexample: on a corpus with one dataset
holding one analyte, the filter-option extraction with an absent subset
yields an empty biomarker vocabulary, while extraction over all loaded
datasets contains the biomarker of the loaded analyte, so the two differ. -/
theorem filter_options_empty_ne_full :
    (get_dataset_filter_options exCorpus Selection.nothing).1 = [] ∧
    "SARS-CoV-2" ∈ (get_unique_values exCorpus).1 := by
  constructor
  · show sortedVocab (unionOver
      (fun ds_id => datasetBiomarkers (selectedDataset exCorpus ds_id)) []) = []
    simp [sortedVocab, unionOver]
  · unfold get_unique_values sortedVocab
    rw [Finset.mem_sort, mem_unionOver]
    refine ⟨("d1", { dataset_id := some "d1", analytes := [("a1", exAnalyte)] }),
      by simp [exCorpus], ?_⟩
    unfold datasetBiomarkers
    rw [mem_unionOver]
    refine ⟨("a1", exAnalyte), by simp, ?_⟩
    rw [mem_analyteBiomarkers]
    exact ⟨rfl, by decide⟩

/-- Claim C1 as amended: when the dataset subset argument of the
filter-option extraction is empty or absent, the three vocabularies
returned are empty (no loaded dataset contributes); the vocabularies over
all loaded datasets are those of the subset-free extractor
`get_unique_values`, which the filter-option extraction matches only when
every dataset id is passed explicitly. -/
theorem filter_options_empty_selection (datasets : Corpus)
    (h : (datasets.map Prod.fst).Nodup) :
    get_dataset_filter_options datasets Selection.nothing = ([], [], []) ∧
    get_dataset_filter_options datasets (Selection.many []) = ([], [], []) ∧
    get_dataset_filter_options datasets (Selection.many (datasets.map Prod.fst)) =
      get_unique_values datasets := by
  refine ⟨?_, ?_, ?_⟩
  · simp [get_dataset_filter_options, normalizeSelection, unionOver, sortedVocab]
  · simp [get_dataset_filter_options, normalizeSelection, unionOver, sortedVocab]
  · simp only [get_dataset_filter_options, normalizeSelection, get_unique_values,
      unionOver_allKeys datasets h]

/-- Witness for the amended claim C1 at the concrete one-dataset corpus. -/
theorem filter_options_empty_selection_witness :
    (exCorpus.map Prod.fst).Nodup ∧
    (get_dataset_filter_options exCorpus Selection.nothing = ([], [], []) ∧
     get_dataset_filter_options exCorpus (Selection.many []) = ([], [], []) ∧
     get_dataset_filter_options exCorpus (Selection.many (exCorpus.map Prod.fst)) =
       get_unique_values exCorpus) :=
  ⟨by decide, filter_options_empty_selection exCorpus (by decide)⟩

/-- Claim C4: a query whose dataset selection is absent (None) or empty
(the empty list, falsy in Python) yields the explicit no-selection
placeholder in both the plots callback and the statistics callback, never
the data of the corpus. -/
theorem empty_selection_yields_placeholder (datasets : Corpus) :
    update_tab_plots_individual datasets none =
      TabContent.message "Please select a study in the tab creation" ∧
    update_tab_plots_individual datasets (some "") =
      TabContent.message "Please select a study in the tab creation" ∧
    update_tab_plots_multiple datasets none =
      TabContent.message "Please select studies in the tab creation" ∧
    update_tab_plots_multiple datasets (some []) =
      TabContent.message "Please select studies in the tab creation" ∧
    update_tab_statistics_individual datasets none =
      TabContent.message "Please select a study in the tab creation" ∧
    update_tab_statistics_individual datasets (some "") =
      TabContent.message "Please select a study in the tab creation" ∧
    update_tab_statistics_multiple datasets none =
      TabContent.message "Please select studies in the tab creation" ∧
    update_tab_statistics_multiple datasets (some []) =
      TabContent.message "Please select studies in the tab creation" := by
  refine ⟨rfl, ?_, rfl, ?_, rfl, ?_, rfl, ?_⟩ <;>
    simp [update_tab_plots_individual, update_tab_plots_multiple,
      update_tab_statistics_individual, update_tab_statistics_multiple]

theorem mem_unique_values_biomarkers (datasets : Corpus) (s : String) :
    s ∈ (get_unique_values datasets).1 ↔
      ∃ p ∈ datasets, ∃ q ∈ p.2.analytes, q.2.biomarker = some s ∧ s ≠ "" := by
  show s ∈ Finset.sort (· ≤ ·) (unionOver (fun p => datasetBiomarkers p.2) datasets) ↔ _
  rw [Finset.mem_sort]
  simp only [mem_unionOver, datasetBiomarkers, mem_analyteBiomarkers]

theorem mem_unique_values_specimens (datasets : Corpus) (s : String) :
    s ∈ (get_unique_values datasets).2.1 ↔
      ∃ p ∈ datasets, ∃ q ∈ p.2.analytes,
        (q.2.specimen = some (SpecimenVal.scalar s) ∧ s ≠ "") ∨
        ∃ ls, q.2.specimen = some (SpecimenVal.vlist ls) ∧ s ∈ ls := by
  show s ∈ Finset.sort (· ≤ ·) (unionOver (fun p => datasetSpecimens p.2) datasets) ↔ _
  rw [Finset.mem_sort]
  simp only [mem_unionOver, datasetSpecimens, mem_analyteSpecimens]

theorem mem_unique_values_refevents (datasets : Corpus) (s : String) :
    s ∈ (get_unique_values datasets).2.2 ↔
      ∃ p ∈ datasets, ∃ q ∈ p.2.analytes, q.2.reference_event = some s ∧ s ≠ "" := by
  show s ∈ Finset.sort (· ≤ ·) (unionOver (fun p => datasetRefEvents p.2) datasets) ↔ _
  rw [Finset.mem_sort]
  simp only [mem_unionOver, datasetRefEvents, mem_analyteRefEvents]

/-- Claim C5: on every corpus, the three vocabularies returned by
`get_unique_values` are lexicographically sorted and duplicate-free, and
the specimen vocabulary holds exactly the truthy scalar specimen values
and the individual elements of list-valued specimens: a list value
contributes each element on its own, never a joined string. -/
theorem unique_values_sorted_nodup_specimen_elements (datasets : Corpus) :
    List.Sorted (· ≤ ·) (get_unique_values datasets).1 ∧
    (get_unique_values datasets).1.Nodup ∧
    List.Sorted (· ≤ ·) (get_unique_values datasets).2.1 ∧
    (get_unique_values datasets).2.1.Nodup ∧
    List.Sorted (· ≤ ·) (get_unique_values datasets).2.2 ∧
    (get_unique_values datasets).2.2.Nodup ∧
    ∀ s : String, s ∈ (get_unique_values datasets).2.1 ↔
      ∃ p ∈ datasets, ∃ q ∈ p.2.analytes,
        (q.2.specimen = some (SpecimenVal.scalar s) ∧ s ≠ "") ∨
        ∃ ls, q.2.specimen = some (SpecimenVal.vlist ls) ∧ s ∈ ls :=
  ⟨Finset.sort_sorted _ _, Finset.sort_nodup _ _, Finset.sort_sorted _ _,
   Finset.sort_nodup _ _, Finset.sort_sorted _ _, Finset.sort_nodup _ _,
   fun s => mem_unique_values_specimens datasets s⟩

theorem unionOver_selected_subset (datasets : Corpus) (ids : List String)
    (f : Dataset → Finset String) (hf : f {} = ∅) (x : String)
    (hx : x ∈ unionOver (fun i => f (selectedDataset datasets i)) ids) :
    x ∈ unionOver (fun p => f p.2) datasets := by
  rw [mem_unionOver] at hx ⊢
  obtain ⟨i, hi, hx⟩ := hx
  cases hl : lookupDataset datasets i with
  | none =>
    rw [selectedDataset, hl, Option.getD_none, hf] at hx
    exact absurd hx (Finset.not_mem_empty x)
  | some ds =>
    rw [selectedDataset, hl, Option.getD_some] at hx
    exact ⟨(i, ds), mem_of_lookupDataset hl, hx⟩

/-- Claim C6: for every corpus and every subset of its dataset ids, each of
the three vocabularies extracted over that subset is, as a set, contained
in the corresponding vocabulary extracted over the full corpus. -/
theorem subset_filter_options_subset_full (datasets : Corpus) (ids : List String)
    (_hsub : ∀ i ∈ ids, i ∈ datasets.map Prod.fst) :
    (∀ x ∈ (get_dataset_filter_options datasets (Selection.many ids)).1,
        x ∈ (get_unique_values datasets).1) ∧
    (∀ x ∈ (get_dataset_filter_options datasets (Selection.many ids)).2.1,
        x ∈ (get_unique_values datasets).2.1) ∧
    (∀ x ∈ (get_dataset_filter_options datasets (Selection.many ids)).2.2,
        x ∈ (get_unique_values datasets).2.2) := by
  refine ⟨?_, ?_, ?_⟩
  · intro x hx
    have hx2 : x ∈ Finset.sort (· ≤ ·)
        (unionOver (fun i => datasetBiomarkers (selectedDataset datasets i)) ids) := hx
    rw [Finset.mem_sort] at hx2
    show x ∈ Finset.sort (· ≤ ·) (unionOver (fun p => datasetBiomarkers p.2) datasets)
    rw [Finset.mem_sort]
    exact unionOver_selected_subset datasets ids datasetBiomarkers rfl x hx2
  · intro x hx
    have hx2 : x ∈ Finset.sort (· ≤ ·)
        (unionOver (fun i => datasetSpecimens (selectedDataset datasets i)) ids) := hx
    rw [Finset.mem_sort] at hx2
    show x ∈ Finset.sort (· ≤ ·) (unionOver (fun p => datasetSpecimens p.2) datasets)
    rw [Finset.mem_sort]
    exact unionOver_selected_subset datasets ids datasetSpecimens rfl x hx2
  · intro x hx
    have hx2 : x ∈ Finset.sort (· ≤ ·)
        (unionOver (fun i => datasetRefEvents (selectedDataset datasets i)) ids) := hx
    rw [Finset.mem_sort] at hx2
    show x ∈ Finset.sort (· ≤ ·) (unionOver (fun p => datasetRefEvents p.2) datasets)
    rw [Finset.mem_sort]
    exact unionOver_selected_subset datasets ids datasetRefEvents rfl x hx2

/-- Witness for claim C6 at the concrete one-dataset corpus and the subset
holding its only id. -/
theorem subset_filter_options_subset_full_witness :
    (∀ i ∈ ["d1"], i ∈ exCorpus.map Prod.fst) ∧
    ((∀ x ∈ (get_dataset_filter_options exCorpus (Selection.many ["d1"])).1,
        x ∈ (get_unique_values exCorpus).1) ∧
     (∀ x ∈ (get_dataset_filter_options exCorpus (Selection.many ["d1"])).2.1,
        x ∈ (get_unique_values exCorpus).2.1) ∧
     (∀ x ∈ (get_dataset_filter_options exCorpus (Selection.many ["d1"])).2.2,
        x ∈ (get_unique_values exCorpus).2.2)) :=
  ⟨by decide, subset_filter_options_subset_full exCorpus ["d1"] (by decide)⟩

/-- Claim C10, corrected, counterexample: a corpus whose only analyte has
the list-valued specimen containing the empty string puts the falsy empty
string into the specimen vocabulary (the list branch of src/app.py line
125 adds every element unfiltered). -/
theorem empty_string_in_specimen_vocab :
    "" ∈ (get_unique_values exCorpusEmptySpecimen).2.1 := by
  rw [mem_unique_values_specimens]
  refine ⟨("d1", { dataset_id := some "d1", analytes := [("a1", exEmptySpecimenAnalyte)] }),
    by simp [exCorpusEmptySpecimen], ?_⟩
  refine ⟨("a1", exEmptySpecimenAnalyte), by simp, ?_⟩
  right
  exact ⟨["", "stool"], rfl, by simp⟩

/-- Claim C10 as amended: the biomarker and reference-event vocabularies
never contain the empty string (an absent, None, or empty-string field
contributes nothing), and the empty string appears in the specimen
vocabulary exactly when some analyte has a list-valued specimen with an
empty-string element: scalar falsy specimens are excluded, but list
elements are added unfiltered. -/
theorem vocab_falsy_entries (datasets : Corpus) :
    "" ∉ (get_unique_values datasets).1 ∧
    "" ∉ (get_unique_values datasets).2.2 ∧
    ("" ∈ (get_unique_values datasets).2.1 ↔
      ∃ p ∈ datasets, ∃ q ∈ p.2.analytes,
        ∃ ls, q.2.specimen = some (SpecimenVal.vlist ls) ∧ "" ∈ ls) := by
  refine ⟨?_, ?_, ?_⟩
  · rw [mem_unique_values_biomarkers]
    rintro ⟨p, hp, q, hq, hb, hne⟩
    exact hne rfl
  · rw [mem_unique_values_refevents]
    rintro ⟨p, hp, q, hq, hb, hne⟩
    exact hne rfl
  · rw [mem_unique_values_specimens]
    constructor
    · rintro ⟨p, hp, q, hq, ⟨hsc, hne⟩ | ⟨ls, hl, hmem⟩⟩
      · exact absurd rfl hne
      · exact ⟨p, hp, q, hq, ls, hl, hmem⟩
    · rintro ⟨p, hp, q, hq, ls, hl, hmem⟩
      exact ⟨p, hp, q, hq, Or.inr ⟨ls, hl, hmem⟩⟩

/-- Claim C3: an individual-mode selection naming an id absent from the
corpus yields the descriptive not-found placeholder rather than a raised
fault, in both the plots and the statistics callback; and in a multi-id
request an id absent from the corpus is dropped by the membership filter
(src/app.py lines 794 and 1085) without affecting the result computed for
the remaining ids. -/
theorem unknown_dataset_not_found (datasets : Corpus) (s : String) (ids1 ids2 : List String)
    (bad : String) (hs : s ≠ "") (hlook : lookupDataset datasets s = none)
    (hbad : lookupDataset datasets bad = none) (hne : ids1 ++ ids2 ≠ []) :
    update_tab_plots_individual datasets (some s) =
      TabContent.message ("Dataset " ++ s ++ " not found") ∧
    update_tab_statistics_individual datasets (some s) =
      TabContent.message ("Dataset " ++ s ++ " not found") ∧
    update_tab_plots_multiple datasets (some (ids1 ++ bad :: ids2)) =
      update_tab_plots_multiple datasets (some (ids1 ++ ids2)) ∧
    update_tab_statistics_multiple datasets (some (ids1 ++ bad :: ids2)) =
      update_tab_statistics_multiple datasets (some (ids1 ++ ids2)) := by
  have hfm : (ids1 ++ bad :: ids2).filterMap (lookupDataset datasets) =
      (ids1 ++ ids2).filterMap (lookupDataset datasets) := by
    simp [List.filterMap_append, List.filterMap_cons, hbad]
  have hne1 : (ids1 ++ bad :: ids2).isEmpty = false := by simp
  have hne2 : (ids1 ++ ids2).isEmpty = false := by
    cases hcase : ids1 ++ ids2 with
    | nil => exact absurd hcase hne
    | cons a l => rfl
  refine ⟨?_, ?_, ?_, ?_⟩
  · simp [update_tab_plots_individual, hs, hlook]
  · simp [update_tab_statistics_individual, hs, hlook]
  · simp [update_tab_plots_multiple, hne1, hne2, hfm]
  · simp [update_tab_statistics_multiple, hne1, hne2, hfm]

/-- Witness for claim C3 at the concrete one-dataset corpus, the unknown
id zz and the multi-request listing the valid id d1 and zz. -/
theorem unknown_dataset_not_found_witness :
    lookupDataset exCorpus "zz" = none ∧
    (update_tab_plots_individual exCorpus (some "zz") =
       TabContent.message ("Dataset " ++ "zz" ++ " not found") ∧
     update_tab_statistics_individual exCorpus (some "zz") =
       TabContent.message ("Dataset " ++ "zz" ++ " not found") ∧
     update_tab_plots_multiple exCorpus (some (["d1"] ++ "zz" :: [])) =
       update_tab_plots_multiple exCorpus (some (["d1"] ++ [])) ∧
     update_tab_statistics_multiple exCorpus (some (["d1"] ++ "zz" :: [])) =
       update_tab_statistics_multiple exCorpus (some (["d1"] ++ []))) :=
  ⟨by decide, unknown_dataset_not_found exCorpus "zz" ["d1"] [] "zz" (by decide) (by decide)
    (by decide) (by decide)⟩

theorem insertAssoc_not_mem (m : Corpus) (k : String) (v : Dataset)
    (h : k ∉ m.map Prod.fst) : insertAssoc m k v = m ++ [(k, v)] := by
  have hc : ¬(m.any (fun p => p.1 == k) = true) := by
    intro hany
    rw [List.any_eq_true] at hany
    obtain ⟨p, hp, he⟩ := hany
    rw [beq_iff_eq] at he
    exact h (he ▸ List.mem_map_of_mem Prod.fst hp)
  unfold insertAssoc
  rw [if_neg hc]

theorem loadStep_foldl (files : Directory) (acc : LoadResult)
    (h : (acc.datasets.map Prod.fst ++ files.map (fun f => stem f.1)).Nodup) :
    files.foldl loadStep acc =
      { datasets := acc.datasets ++ files.filterMap (fun f =>
          f.2.map (fun d => (stem f.1, { d with dataset_id := some (stem f.1) }))),
        errors := acc.errors ++ (files.filter (fun f => f.2.isNone)).map (fun f => f.1) } := by
  induction files generalizing acc with
  | nil => cases acc; simp
  | cons f fs ih =>
    obtain ⟨name, od⟩ := f
    cases od with
    | none =>
      rw [List.foldl_cons]
      show (fs.foldl loadStep { acc with errors := acc.errors ++ [name] }) = _
      rw [ih { acc with errors := acc.errors ++ [name] } ?_]
      · simp
      · refine List.Nodup.sublist ?_ h
        refine List.Sublist.append_left ?_ _
        simp
    | some d =>
      rw [List.foldl_cons]
      have hk : stem name ∉ acc.datasets.map Prod.fst := by
        rw [List.nodup_append] at h
        intro hmem
        exact h.2.2 hmem (List.mem_cons_self _ _)
      show (fs.foldl loadStep { acc with datasets := insertAssoc acc.datasets (stem name) { d with dataset_id := some (stem name) } }) = _
      rw [insertAssoc_not_mem _ _ _ hk]
      rw [ih { acc with datasets := acc.datasets ++ [(stem name, { d with dataset_id := some (stem name) })] } ?_]
      · simp
      · simp only [List.map_append, List.map_cons, List.map_nil]
        have heq : (acc.datasets.map Prod.fst ++ [stem name]) ++ fs.map (fun f => stem f.1) =
            acc.datasets.map Prod.fst ++ stem name :: fs.map (fun f => stem f.1) := by
          simp
        simp only [List.map_cons] at h
        rw [List.append_assoc]
        simpa using h

/-- Claim C2: over any directory whose selected YAML files have pairwise
distinct stems (true of a real directory, where filenames are unique and
all selected names share the extension), the loader reports one error per
file that fails to parse, skips exactly those files, and the corpus holds
exactly the successfully parsed records keyed by their stems. -/
theorem load_data_partial_failure (dir : Directory)
    (h : ((yaml_files dir).map (fun f => stem f.1)).Nodup) :
    (load_data dir).errors =
      ((yaml_files dir).filter (fun f => f.2.isNone)).map (fun f => f.1) ∧
    (load_data dir).datasets = (yaml_files dir).filterMap (fun f =>
      f.2.map (fun d => (stem f.1, { d with dataset_id := some (stem f.1) }))) := by
  have hfold := loadStep_foldl (yaml_files dir) {} (by simpa using h)
  unfold load_data
  rw [hfold]
  simp

/-- A directory with one unparsable YAML file alongside five valid files,
used by the witness of claim C2. -/
def exDir : Directory :=
  [("bad.yaml", none), ("a.yaml", some {}), ("b.yaml", some {}),
   ("c.yaml", some {}), ("d.yaml", some {}), ("e.yaml", some {})]

/-- Witness for claim C2 at the concrete six-file directory: exactly one
reported error and a corpus of size five. -/
theorem load_data_partial_failure_witness :
    ((yaml_files exDir).map (fun f => stem f.1)).Nodup ∧
    ((load_data exDir).errors =
       ((yaml_files exDir).filter (fun f => f.2.isNone)).map (fun f => f.1) ∧
     (load_data exDir).datasets = (yaml_files exDir).filterMap (fun f =>
       f.2.map (fun d => (stem f.1, { d with dataset_id := some (stem f.1) })))) ∧
    (load_data exDir).errors.length = 1 ∧
    (load_data exDir).datasets.length = 5 :=
  ⟨by decide, load_data_partial_failure exDir (by decide), by decide, by decide⟩

theorem endsWithYaml_decomp {s : String} (h : endsWithYaml s = true) :
    ∃ pre : List Char, s.data = pre ++ ".yaml".data := by
  unfold endsWithYaml at h
  rw [List.isSuffixOf_iff_suffix] at h
  obtain ⟨pre, hpre⟩ := h
  exact ⟨pre, hpre.symm⟩

theorem stem_data_of_endsWithYaml {s : String} {pre : List Char}
    (hd : s.data = pre ++ ".yaml".data) (hne : pre ≠ []) :
    (stem s).data = pre := by
  have h5 : ".yaml".data.length = 5 := by decide
  have hlen : s.data.length = pre.length + 5 := by rw [hd, List.length_append, h5]
  have hpos : 0 < pre.length := List.length_pos.mpr hne
  have hgt : ¬ s.data.length ≤ 5 := by rw [hlen]; omega
  unfold stem
  rw [if_neg hgt]
  show s.data.take (s.data.length - 5) = pre
  rw [hlen]
  have heq : pre.length + 5 - 5 = pre.length := by omega
  rw [heq, hd]
  exact List.take_left pre _

theorem startsWithDot_stem {s : String} (h : endsWithYaml s = true) :
    startsWithDot (stem s) = startsWithDot s := by
  obtain ⟨pre, hd⟩ := endsWithYaml_decomp h
  cases hpre : pre with
  | nil =>
    rw [hpre, List.nil_append] at hd
    have hlen : s.data.length ≤ 5 := by rw [hd]; decide
    unfold stem
    rw [if_pos hlen]
  | cons c cs =>
    subst hpre
    have hs : (stem s).data = c :: cs := stem_data_of_endsWithYaml hd (by simp)
    unfold startsWithDot
    rw [hs, hd]
    simp

theorem mem_insertAssoc {m : Corpus} {k : String} {v : Dataset} {p : String × Dataset}
    (h : p ∈ insertAssoc m k v) : p ∈ m ∨ p = (k, v) := by
  unfold insertAssoc at h
  by_cases hc : m.any (fun q => q.1 == k) = true
  · rw [if_pos hc] at h
    rw [List.mem_map] at h
    obtain ⟨q, hq, he⟩ := h
    by_cases hqe : (q.1 == k) = true
    · rw [if_pos hqe] at he
      exact Or.inr he.symm
    · rw [if_neg hqe] at he
      exact Or.inl (he ▸ hq)
  · rw [if_neg hc] at h
    rcases List.mem_append.mp h with h1 | h2
    · exact Or.inl h1
    · simp only [List.mem_singleton] at h2
      exact Or.inr h2

theorem mem_foldl_loadStep (files : Directory) (acc : LoadResult) (p : String × Dataset)
    (hp : p ∈ (files.foldl loadStep acc).datasets) :
    p ∈ acc.datasets ∨ ∃ f ∈ files, ∃ d, f.2 = some d ∧
      p = (stem f.1, { d with dataset_id := some (stem f.1) }) := by
  induction files generalizing acc with
  | nil => exact Or.inl hp
  | cons f fs ih =>
    rw [List.foldl_cons] at hp
    rcases ih (loadStep acc f) hp with hmem | hrest
    · obtain ⟨name, od⟩ := f
      cases od with
      | none => exact Or.inl hmem
      | some d =>
        rcases mem_insertAssoc hmem with h1 | h2
        · exact Or.inl h1
        · exact Or.inr ⟨(name, some d), List.mem_cons_self _ _, d, rfl, h2⟩
    · obtain ⟨g, hg, d, hd, he⟩ := hrest
      exact Or.inr ⟨g, List.mem_cons_of_mem _ hg, d, hd, he⟩

/-- Claim C7: the loader parses exactly the files of the directory whose
name has extension .yaml and does not start with a dot (for a name that
ends in .yaml, its stem starts with a dot exactly when the name does, so
the stem filter of src/app.py line 78 equals the filename condition), and
every entry of the loaded corpus comes from such a file, is keyed by the
filename without its extension, and carries that key as `dataset_id`. -/
theorem load_data_selects_yaml (dir : Directory) :
    (∀ f ∈ dir, (f ∈ yaml_files dir ↔
        endsWithYaml f.1 = true ∧ startsWithDot f.1 = false)) ∧
    (∀ p ∈ (load_data dir).datasets, ∃ f ∈ dir, ∃ d,
        endsWithYaml f.1 = true ∧ startsWithDot f.1 = false ∧ f.2 = some d ∧
        p.1 ++ ".yaml" = f.1 ∧ p.2 = { d with dataset_id := some p.1 }) := by
  constructor
  · intro f hf
    unfold yaml_files
    rw [List.mem_filter]
    constructor
    · rintro ⟨-, hp⟩
      rw [Bool.and_eq_true, Bool.not_eq_true'] at hp
      refine ⟨hp.1, ?_⟩
      rw [← startsWithDot_stem hp.1]
      exact hp.2
    · rintro ⟨h1, h2⟩
      refine ⟨hf, ?_⟩
      rw [Bool.and_eq_true, Bool.not_eq_true']
      refine ⟨h1, ?_⟩
      rw [startsWithDot_stem h1]
      exact h2
  · intro p hp
    unfold load_data at hp
    rcases mem_foldl_loadStep (yaml_files dir) {} p hp with h0 | hrest
    · simp at h0
    · obtain ⟨f, hf, d, hd, he⟩ := hrest
      have hfd : f ∈ dir := List.mem_of_mem_filter hf
      have hfp := List.of_mem_filter hf
      rw [Bool.and_eq_true, Bool.not_eq_true'] at hfp
      obtain ⟨hy, hdot⟩ := hfp
      have hdotname : startsWithDot f.1 = false := by
        rw [← startsWithDot_stem hy]
        exact hdot
      obtain ⟨pre, hdata⟩ := endsWithYaml_decomp hy
      have hprene : pre ≠ [] := by
        intro h0
        rw [h0, List.nil_append] at hdata
        have hT : startsWithDot f.1 = true := by
          unfold startsWithDot
          rw [hdata]
          rfl
        rw [hT] at hdotname
        exact absurd hdotname (by simp)
      have hstem : (stem f.1).data = pre := stem_data_of_endsWithYaml hdata hprene
      refine ⟨f, hfd, d, hy, hdotname, hd, ?_, ?_⟩
      · rw [he]
        show stem f.1 ++ ".yaml" = f.1
        apply String.ext
        show (stem f.1).data ++ ".yaml".data = f.1.data
        rw [hstem, hdata]
      · rw [he]

/-- Claim C8, corrected, counterexample: keyed access on a scalar value (a
string where a mapping was expected, as happens when an analytes entry is
a scalar) raises AttributeError instead of resolving to a sentinel. -/
theorem dict_get_scalar_raises :
    dict_get (PyVal.str "stool") "biomarker" PyVal.pynone = Except.error "AttributeError" :=
  rfl

/-- Claim C8 as amended: the field lookup never raises on a mapping record
(a missing key resolves to the supplied default, None or an empty mapping
at the cited call sites), but keyed access on a value whose type does not
support it (a scalar string, or None) raises AttributeError rather than
resolving to a sentinel. -/
theorem dict_get_mapping_never_raises (kvs : List (String × PyVal)) (key : String) (d : PyVal) :
    (∃ v, dict_get (PyVal.dict kvs) key d = Except.ok v) ∧
    (kvs.find? (fun p => p.1 == key) = none → dict_get (PyVal.dict kvs) key d = Except.ok d) ∧
    (∀ s, dict_get (PyVal.str s) key d = Except.error "AttributeError") ∧
    dict_get PyVal.pynone key d = Except.error "AttributeError" := by
  refine ⟨?_, ?_, fun s => rfl, rfl⟩
  · simp only [dict_get]
    cases hf : kvs.find? (fun p => p.1 == key) with
    | none => exact ⟨d, rfl⟩
    | some p => exact ⟨p.2, rfl⟩
  · intro hf
    simp only [dict_get, hf]

theorem syncStep_foldl (files : List (List String × Option String)) (acc : SyncResult) :
    files.foldl syncStep acc =
      { written := acc.written ++ files.filterMap (fun f =>
          if startsWithDot (baseName f.1) then none
          else f.2.map (fun c => (["data", baseName f.1], c))),
        errors := acc.errors ++ files.filterMap (fun f =>
          if startsWithDot (baseName f.1) then none
          else if f.2.isSome then none else some (joinPath f.1)) } := by
  induction files generalizing acc with
  | nil => cases acc; simp
  | cons f fs ih =>
    rw [List.foldl_cons, ih]
    obtain ⟨segs, oc⟩ := f
    by_cases hdot : startsWithDot (baseName segs) = true
    · simp [syncStep, hdot, List.filterMap_cons]
    · rw [Bool.not_eq_true] at hdot
      cases oc with
      | some c => simp [syncStep, hdot, List.filterMap_cons]
      | none => simp [syncStep, hdot, List.filterMap_cons]

/-- Claim C9: the sync writes every fetched non-hidden file directly into
the single local data directory under its base name alone, whatever its
remote subdirectory; it skips every file whose name starts with a dot
(neither writing nor reporting it); it reports one error per failed fetch
of a non-hidden file; and a failed or hidden file never affects what is
written for the other files (the batch continues). -/
theorem sync_data_flattens_skips_continues (files : List (List String × Option String)) :
    (sync_data files).written = files.filterMap (fun f =>
        if startsWithDot (baseName f.1) then none
        else f.2.map (fun c => (["data", baseName f.1], c))) ∧
    (sync_data files).errors = files.filterMap (fun f =>
        if startsWithDot (baseName f.1) then none
        else if f.2.isSome then none else some (joinPath f.1)) ∧
    (∀ pre post (bad : List String × Option String), bad.2 = none →
        (sync_data (pre ++ bad :: post)).written = (sync_data (pre ++ post)).written) ∧
    (∀ pre post (hid : List String × Option String), startsWithDot (baseName hid.1) = true →
        sync_data (pre ++ hid :: post) = sync_data (pre ++ post)) := by
  have hsync : ∀ l : List (List String × Option String),
      sync_data l =
        { written := l.filterMap (fun f =>
            if startsWithDot (baseName f.1) then none
            else f.2.map (fun c => (["data", baseName f.1], c))),
          errors := l.filterMap (fun f =>
            if startsWithDot (baseName f.1) then none
            else if f.2.isSome then none else some (joinPath f.1)) } := by
    intro l
    have hl := syncStep_foldl l {}
    simpa [sync_data] using hl
  refine ⟨by rw [hsync], by rw [hsync], ?_, ?_⟩
  · intro pre post bad hbad
    rw [hsync, hsync]
    simp [List.filterMap_append, List.filterMap_cons, hbad]
  · intro pre post hid hdot
    rw [hsync, hsync]
    simp [List.filterMap_append, List.filterMap_cons, hdot]
